import Mathlib

/-!
Verification development for the codex log viewer
(`codex_log_viewer.js`): a shallow embedding of the log ingestion,
normalisation, classification and analytics pipeline, together with
theorems about its behaviour.

Modelling conventions:
* JSON values are the inductive `Json`; JavaScript numbers are modelled
  as exact rationals (`ℚ`), so floating-point rounding is idealised away.
* `JSON.parse` is modelled by the executable parser `jsonParse`
  (strict JSON grammar, duplicate object keys resolved last-wins, as in
  JavaScript engines).
* JavaScript exceptions that escape `renderJsonl` (e.g. a property
  access on `null`, or `for..of` over a non-iterable) are modelled by
  `Except.error`.
* Rendered HTML is abstracted to `Block` descriptors: one constructor
  per distinct HTML template in the source.  Presentation-only chrome
  (CSS classes, the inline timestamp span, the SVG chart markup) is not
  part of a `Block`.
-/

namespace CodexLogViewer

/-- JSON values, as produced by `JSON.parse`.  Object fields are kept in
insertion order with unique keys (duplicates overwritten last-wins while
parsing, as JavaScript does). -/
inductive Json where
  | null
  | bool (b : Bool)
  | num (q : ℚ)
  | str (s : String)
  | arr (elems : List Json)
  | obj (fields : List (String × Json))

/-- Property lookup on an object's field list: first match (keys are
unique by construction). -/
def lookupField : List (String × Json) → String → Option Json
  | [], _ => none
  | (k, v) :: fs, key => if k = key then some v else lookupField fs key

/-- JavaScript property access `v[key]` for non-null values: objects
yield their own property, every other value yields `undefined`
(modelled as `none`).  Access on `null` throws in JavaScript; callers
that can reach `null` handle that case themselves. -/
def Json.getP : Json → String → Option Json
  | .obj fs, key => lookupField fs key
  | _, _ => none

/-- `Object.prototype.hasOwnProperty.call(v, key)`. -/
def Json.hasOwn : Json → String → Bool
  | .obj fs, key => (lookupField fs key).isSome
  | _, _ => false

/-- JavaScript truthiness of a (JSON-representable) value. -/
def truthy : Json → Bool
  | .null => false
  | .bool b => b
  | .num q => q ≠ 0
  | .str s => s ≠ ""
  | .arr _ => true
  | .obj _ => true

/-- Truthiness of a possibly-missing value (`undefined` is falsy). -/
def truthyOpt : Option Json → Bool
  | none => false
  | some v => truthy v

/-- `v || dflt` on a possibly-missing left operand. -/
def jsOrElse (v : Option Json) (dflt : Json) : Json :=
  match v with
  | some w => if truthy w then w else dflt
  | none => dflt

/-- Greatest `e` with `p ^ e ∣ n` (for `2 ≤ p`, `1 ≤ n`), by fuel. -/
def countFactorAux : Nat → Nat → Nat → Nat
  | 0, _, _ => 0
  | fuel + 1, p, n => if n % p = 0 ∧ 1 < n then countFactorAux fuel p (n / p) + 1 else 0

def countFactor (p n : Nat) : Nat := countFactorAux n p n

/-- The decimal digits of `n`, most significant first. -/
def natDigits (n : Nat) : List Char :=
  (Nat.toDigits 10 n)

/-- Decimal rendering of a rational whose denominator divides a power of
ten (every number produced by `jsonParse` has this shape), mirroring
JavaScript's `String(number)` for such values.  JavaScript switches to
exponent notation for magnitudes outside `[1e-6, 1e21)`; that cosmetic
divergence is not modelled.  Rationals with other denominators (never
produced by the parser) fall back to a fraction rendering. -/
def ratDecimalString (q : ℚ) : String :=
  if q.den = 1 then toString q.num
  else
    let a := countFactor 2 q.den
    let b := countFactor 5 q.den
    let k := max a b
    if 2 ^ a * 5 ^ b = q.den then
      let scaled := q.num.natAbs * (10 ^ k / q.den)
      let ds := natDigits scaled
      let ds := List.replicate (k + 1 - ds.length) '0' ++ ds
      let intPart := ds.take (ds.length - k)
      let fracPart := ((ds.drop (ds.length - k)).reverse.dropWhile (· = '0')).reverse
      (if q.num < 0 then "-" else "")
        ++ String.mk intPart
        ++ (if fracPart.isEmpty then "" else "." ++ String.mk fracPart)
    else
      toString q.num ++ "/" ++ toString q.den

mutual

/-- JavaScript `String(v)` coercion. -/
def jsString : Json → String
  | .null => "null"
  | .bool true => "true"
  | .bool false => "false"
  | .num q => ratDecimalString q
  | .str s => s
  | .arr xs => jsStringElems xs
  | .obj _ => "[object Object]"

/-- `Array.prototype.join(",")` as used by array-to-string coercion:
`null` elements render as the empty string. -/
def jsStringElems : List Json → String
  | [] => ""
  | x :: xs =>
    (match x with
      | .null => ""
      | .bool b => jsString (.bool b)
      | .num q => jsString (.num q)
      | .str s => s
      | .arr ys => jsStringElems ys
      | .obj _ => "[object Object]")
    ++ (match xs with
      | [] => ""
      | _ => "," ++ jsStringElems xs)

end

/-- `String(v)` where `v` may be `undefined`. -/
def jsStringOpt : Option Json → String
  | none => "undefined"
  | some v => jsString v

/-- The length JavaScript reports for a string: UTF-16 code units. -/
def jsLength (s : String) : Nat :=
  (s.data.map (fun c => if c.toNat < 0x10000 then 1 else 2)).sum

/-- `s.split("\n").length`: one more than the number of newline
characters. -/
def lineSegCount (s : String) : Nat :=
  (s.data.filter (· = '\n')).length + 1

/-- The whitespace class of `String.prototype.trim` (the common ASCII
part; exotic Unicode space characters are not modelled). -/
def jsWs (c : Char) : Bool :=
  c = ' ' ∨ c = '\t' ∨ c = '\n' ∨ c = '\r' ∨ c = '\x0b' ∨ c = '\x0c'

/-- `s.trim()`. -/
def jsTrim (s : String) : String :=
  String.mk (((s.data.dropWhile jsWs).reverse.dropWhile jsWs).reverse)

/-! ### A model of `JSON.parse` (strict JSON grammar) -/

/-- Skip JSON whitespace (space, tab, newline, carriage return). -/
def skipWs : List Char → List Char
  | [] => []
  | c :: cs => if c = ' ' ∨ c = '\t' ∨ c = '\n' ∨ c = '\r' then skipWs cs else c :: cs

def hexVal (c : Char) : Option Nat :=
  if '0' ≤ c ∧ c ≤ '9' then some (c.toNat - '0'.toNat)
  else if 'a' ≤ c ∧ c ≤ 'f' then some (c.toNat - 'a'.toNat + 10)
  else if 'A' ≤ c ∧ c ≤ 'F' then some (c.toNat - 'A'.toNat + 10)
  else none

def isDigit (c : Char) : Bool := '0' ≤ c ∧ c ≤ '9'

/-- Body of a JSON string after the opening quote, returning the decoded
characters and the remainder after the closing quote.  `\uXXXX` escapes
forming a valid surrogate pair are combined; a lone surrogate (which a
JavaScript engine would keep as a malformed UTF-16 unit, inexpressible
in a Lean `String`) is replaced by U+FFFD. -/
def parseStringBody : Nat → List Char → Option (List Char × List Char)
  | 0, _ => none
  | _ + 1, [] => none
  | fuel + 1, c :: rest =>
    if c = '"' then some ([], rest)
    else if c = '\\' then
      match rest with
      | [] => none
      | e :: rest1 =>
        if e = '"' ∨ e = '\\' ∨ e = '/' then
          (parseStringBody fuel rest1).map (fun r => (e :: r.1, r.2))
        else if e = 'b' then
          (parseStringBody fuel rest1).map (fun r => (Char.ofNat 8 :: r.1, r.2))
        else if e = 'f' then
          (parseStringBody fuel rest1).map (fun r => (Char.ofNat 12 :: r.1, r.2))
        else if e = 'n' then
          (parseStringBody fuel rest1).map (fun r => ('\n' :: r.1, r.2))
        else if e = 'r' then
          (parseStringBody fuel rest1).map (fun r => ('\r' :: r.1, r.2))
        else if e = 't' then
          (parseStringBody fuel rest1).map (fun r => ('\t' :: r.1, r.2))
        else if e = 'u' then
          match rest1 with
          | a :: b :: c2 :: d :: rest2 =>
            match hexVal a, hexVal b, hexVal c2, hexVal d with
            | some ha, some hb, some hc, some hd =>
              let n := ((ha * 16 + hb) * 16 + hc) * 16 + hd
              if 0xD800 ≤ n ∧ n ≤ 0xDBFF then
                match rest2 with
                | '\\' :: 'u' :: a2 :: b2 :: c3 :: d2 :: rest3 =>
                  match hexVal a2, hexVal b2, hexVal c3, hexVal d2 with
                  | some ka, some kb, some kc, some kd =>
                    let m := ((ka * 16 + kb) * 16 + kc) * 16 + kd
                    if 0xDC00 ≤ m ∧ m ≤ 0xDFFF then
                      (parseStringBody fuel rest3).map (fun r =>
                        (Char.ofNat (0x10000 + (n - 0xD800) * 0x400 + (m - 0xDC00)) :: r.1, r.2))
                    else
                      (parseStringBody fuel rest2).map (fun r => (Char.ofNat 0xFFFD :: r.1, r.2))
                  | _, _, _, _ =>
                    (parseStringBody fuel rest2).map (fun r => (Char.ofNat 0xFFFD :: r.1, r.2))
                | _ =>
                  (parseStringBody fuel rest2).map (fun r => (Char.ofNat 0xFFFD :: r.1, r.2))
              else if 0xDC00 ≤ n ∧ n ≤ 0xDFFF then
                (parseStringBody fuel rest2).map (fun r => (Char.ofNat 0xFFFD :: r.1, r.2))
              else
                (parseStringBody fuel rest2).map (fun r => (Char.ofNat n :: r.1, r.2))
            | _, _, _, _ => none
          | _ => none
        else none
    else if c.toNat < 0x20 then none
    else (parseStringBody fuel rest).map (fun r => (c :: r.1, r.2))

def takeDigits : List Char → List Char × List Char
  | [] => ([], [])
  | c :: cs =>
    if isDigit c then
      let r := takeDigits cs
      (c :: r.1, r.2)
    else ([], c :: cs)

def digitsToNat (ds : List Char) : Nat :=
  ds.foldl (fun acc c => acc * 10 + (c.toNat - '0'.toNat)) 0

/-- A JSON number literal: `-? (0 | [1-9][0-9]*) (. [0-9]+)? ([eE][+-]?[0-9]+)?`,
evaluated exactly in `ℚ`. -/
def parseJsonNumber (cs : List Char) : Option (ℚ × List Char) :=
  let signed : Bool × List Char :=
    match cs with
    | '-' :: t => (true, t)
    | _ => (false, cs)
  let neg := signed.1
  match signed.2 with
  | [] => none
  | c :: t =>
    if ¬ isDigit c then none
    else
      let intRest : Option (Nat × List Char) :=
        if c = '0' then some (0, t)
        else
          let r := takeDigits (c :: t)
          some (digitsToNat r.1, r.2)
      match intRest with
      | none => none
      | some (ip, rest1) =>
        let fracRest : Option (Nat × Nat × List Char) :=
          match rest1 with
          | '.' :: t2 =>
            let r := takeDigits t2
            if r.1.isEmpty then none else some (digitsToNat r.1, r.1.length, r.2)
          | _ => some (0, 0, rest1)
        match fracRest with
        | none => none
        | some (fn, fl, rest2) =>
          let expRest : Option (Bool × Nat × List Char) :=
            match rest2 with
            | 'e' :: t3 =>
              let es : Bool × List Char :=
                match t3 with
                | '-' :: t4 => (true, t4)
                | '+' :: t4 => (false, t4)
                | _ => (false, t3)
              let r := takeDigits es.2
              if r.1.isEmpty then none else some (es.1, digitsToNat r.1, r.2)
            | 'E' :: t3 =>
              let es : Bool × List Char :=
                match t3 with
                | '-' :: t4 => (true, t4)
                | '+' :: t4 => (false, t4)
                | _ => (false, t3)
              let r := takeDigits es.2
              if r.1.isEmpty then none else some (es.1, digitsToNat r.1, r.2)
            | _ => some (false, 0, rest2)
          match expRest with
          | none => none
          | some (en, ev, rest3) =>
            let numerator : Int := (ip * 10 ^ fl + fn) * (if en then 1 else 10 ^ ev)
            let denominator : Nat := 10 ^ fl * (if en then 10 ^ ev else 1)
            let scaled : ℚ := mkRat numerator denominator
            some (if neg then -scaled else scaled, rest3)

/-- Write an object field, overwriting an existing key in place
(JavaScript object semantics: first-occurrence position, last value). -/
def setField : List (String × Json) → String → Json → List (String × Json)
  | [], k, v => [(k, v)]
  | (k', v') :: fs, k, v =>
    if k' = k then (k, v) :: fs else (k', v') :: setField fs k v

mutual

def parseVal (fuel : Nat) (cs : List Char) : Option (Json × List Char) :=
  match fuel with
  | 0 => none
  | fuel + 1 =>
    match skipWs cs with
    | [] => none
    | c :: rest =>
      if c = '\x7b' then
        match skipWs rest with
        | '\x7d' :: rest2 => some (.obj [], rest2)
        | cs2 => parseMembers fuel cs2 []
      else if c = '[' then
        match skipWs rest with
        | ']' :: rest2 => some (.arr [], rest2)
        | cs2 => parseElems fuel cs2 []
      else if c = '"' then
        (parseStringBody (rest.length + 1) rest).map (fun r => (.str (String.mk r.1), r.2))
      else if c = 't' then
        match rest with
        | 'r' :: 'u' :: 'e' :: rest2 => some (.bool true, rest2)
        | _ => none
      else if c = 'f' then
        match rest with
        | 'a' :: 'l' :: 's' :: 'e' :: rest2 => some (.bool false, rest2)
        | _ => none
      else if c = 'n' then
        match rest with
        | 'u' :: 'l' :: 'l' :: rest2 => some (.null, rest2)
        | _ => none
      else if c = '-' ∨ isDigit c then
        (parseJsonNumber (c :: rest)).map (fun r => (.num r.1, r.2))
      else none

/-- Object members, starting at a key (whitespace already skipped). -/
def parseMembers (fuel : Nat) (cs : List Char) (acc : List (String × Json)) :
    Option (Json × List Char) :=
  match fuel with
  | 0 => none
  | fuel + 1 =>
    match cs with
    | '"' :: rest =>
      match parseStringBody (rest.length + 1) rest with
      | none => none
      | some (key, rest1) =>
        match skipWs rest1 with
        | ':' :: rest2 =>
          match parseVal fuel rest2 with
          | none => none
          | some (v, rest3) =>
            let acc1 := setField acc (String.mk key) v
            match skipWs rest3 with
            | ',' :: rest4 => parseMembers fuel (skipWs rest4) acc1
            | '\x7d' :: rest4 => some (.obj acc1, rest4)
            | _ => none
        | _ => none
    | _ => none

/-- Array elements, starting at a value. -/
def parseElems (fuel : Nat) (cs : List Char) (acc : List Json) :
    Option (Json × List Char) :=
  match fuel with
  | 0 => none
  | fuel + 1 =>
    match parseVal fuel cs with
    | none => none
    | some (v, rest) =>
      match skipWs rest with
      | ',' :: rest2 => parseElems fuel rest2 (acc ++ [v])
      | ']' :: rest2 => some (.arr (acc ++ [v]), rest2)
      | _ => none

end

/-- The model of `JSON.parse`: parse one JSON document, requiring only
trailing whitespace after it.  The fuel `2 * length + 4` is ample: every
recursive step first consumes at least one input character. -/
def jsonParse (s : String) : Option Json :=
  match parseVal (2 * s.data.length + 4) s.data with
  | some (v, rest) => if skipWs rest = [] then some v else none
  | none => none

/-! ### HTML escaping (`esc` / `escapeHtml`) -/

/-- Replace every occurrence of the character `c` by `rep`
(the model of `String.prototype.replace` with a single-character global
pattern). -/
def replaceChar (c : Char) (rep : List Char) (cs : List Char) : List Char :=
  cs.foldr (fun d acc => if d = c then rep ++ acc else d :: acc) []

/-- `esc`: chained global replacement of `&`, then `<`, then `>` by
their HTML entities. -/
def esc (s : String) : String :=
  String.mk (replaceChar '>' ['&', 'g', 't', ';']
    (replaceChar '<' ['&', 'l', 't', ';']
      (replaceChar '&' ['&', 'a', 'm', 'p', ';'] s.data)))

/-- `escapeHtml`: textually the same replacement chain as `esc`. -/
def escapeHtml (s : String) : String :=
  String.mk (replaceChar '>' ['&', 'g', 't', ';']
    (replaceChar '<' ['&', 'l', 't', ';']
      (replaceChar '&' ['&', 'a', 'm', 'p', ';'] s.data)))

/-! ### `Number(v)` coercion

`readTokenMetrics` only ever tests these results with `Number.isFinite`,
so `NaN` and the infinities are conflated into `none`. -/

def digitValInRadix (radix : Nat) (c : Char) : Option Nat :=
  match hexVal c with
  | some v => if v < radix then some v else none
  | none => none

def parseRadixDigits (radix : Nat) : List Char → Option Nat → Option Nat
  | [], acc => acc
  | c :: cs, acc =>
    match acc, digitValInRadix radix c with
    | some a, some v => parseRadixDigits radix cs (some (a * radix + v))
    | none, some v => parseRadixDigits radix cs (some v)
    | _, none => none

/-- A JavaScript `StrDecimalLiteral` (no radix prefix, sign already
stripped): `digits* ('.' digits*)? ([eE] sign? digits+)?` with at least
one digit overall, consuming the entire input. -/
def jsDecTail (cs : List Char) : Option ℚ :=
  let ipr := takeDigits cs
  let fr : Option (List Char × List Char) :=
    match ipr.2 with
    | '.' :: t =>
      let r := takeDigits t
      some (r.1, r.2)
    | _ => some ([], ipr.2)
  match fr with
  | none => none
  | some (fds, rest2) =>
    if ipr.1.isEmpty ∧ fds.isEmpty then none
    else
      let m : Nat := digitsToNat ipr.1 * 10 ^ fds.length + digitsToNat fds
      match rest2 with
      | [] => some (mkRat m (10 ^ fds.length))
      | e :: t3 =>
        if e = 'e' ∨ e = 'E' then
          let es : Bool × List Char :=
            match t3 with
            | '-' :: t4 => (true, t4)
            | '+' :: t4 => (false, t4)
            | _ => (false, t3)
          let r := takeDigits es.2
          if r.1.isEmpty ∨ ¬ r.2.isEmpty then none
          else if es.1 then some (mkRat m (10 ^ fds.length * 10 ^ digitsToNat r.1))
          else some (mkRat (m * 10 ^ digitsToNat r.1) (10 ^ fds.length))
        else none

/-- `Number(string)`: trim, empty means `0`, otherwise a numeric
literal (decimal with optional sign, or unsigned `0x`/`0o`/`0b` radix
literal); `Infinity` and anything unparseable give a non-finite result
(`none`). -/
def strToNumber (s : String) : Option ℚ :=
  match (jsTrim s).data with
  | [] => some 0
  | '+' :: t => if t = "Infinity".data then none else jsDecTail t
  | '-' :: t => if t = "Infinity".data then none else (jsDecTail t).map Neg.neg
  | '0' :: 'x' :: t => (parseRadixDigits 16 t none).map (fun n => (n : ℚ))
  | '0' :: 'X' :: t => (parseRadixDigits 16 t none).map (fun n => (n : ℚ))
  | '0' :: 'o' :: t => (parseRadixDigits 8 t none).map (fun n => (n : ℚ))
  | '0' :: 'O' :: t => (parseRadixDigits 8 t none).map (fun n => (n : ℚ))
  | '0' :: 'b' :: t => (parseRadixDigits 2 t none).map (fun n => (n : ℚ))
  | '0' :: 'B' :: t => (parseRadixDigits 2 t none).map (fun n => (n : ℚ))
  | cs => if cs = "Infinity".data then none else jsDecTail cs

/-- `Number(v)` for a possibly-missing (`undefined`) JSON value,
returning `some q` exactly when the result is a finite number.
Arrays and objects coerce through their string form, as in JavaScript
(`Number([]) = 0`, `Number({}) = NaN`). -/
def jsNumber : Option Json → Option ℚ
  | none => none
  | some .null => some 0
  | some (.bool b) => some (if b then 1 else 0)
  | some (.num q) => some q
  | some (.str s) => strToNumber s
  | some (.arr xs) => strToNumber (jsStringElems xs)
  | some (.obj _) => strToNumber "[object Object]"

/-! ### UTF-8 and base64 (`utf8ToBase64` / `base64ToUtf8`)

The source encodes a string to UTF-8 bytes (`TextEncoder`), packs them
into a binary string and applies `btoa`; decoding is the reverse.  Lean
strings are sequences of Unicode scalar values, so the UTF-16
lone-surrogate corner of JavaScript strings (which `TextEncoder` maps
to U+FFFD) is outside the model. -/

def utf8EncodeChar (n : Nat) : List Nat :=
  if n < 0x80 then [n]
  else if n < 0x800 then [0xC0 + n / 64, 0x80 + n % 64]
  else if n < 0x10000 then [0xE0 + n / 4096, 0x80 + n / 64 % 64, 0x80 + n % 64]
  else [0xF0 + n / 262144, 0x80 + n / 4096 % 64, 0x80 + n / 64 % 64, 0x80 + n % 64]

def utf8Encode (s : String) : List Nat :=
  s.data.foldr (fun c acc => utf8EncodeChar c.toNat ++ acc) []

/-- One UTF-8 decoding step: the scalar encoded by the first byte `b`
and its continuation bytes taken from `rest`, plus the remaining input.
Invalid sequences decode to U+FFFD (as `TextDecoder` does); the exact
resynchronisation on malformed input is approximated (such bytes are
never produced by `utf8Encode`). -/
def utf8Step (b : Nat) (rest : List Nat) : Nat × List Nat :=
  if b < 0x80 then (b, rest)
  else if 0xC0 ≤ b ∧ b < 0xE0 then
    match rest with
    | b2 :: rest2 =>
      if 0x80 ≤ b2 ∧ b2 < 0xC0 then ((b - 0xC0) * 64 + (b2 - 0x80), rest2)
      else (0xFFFD, b2 :: rest2)
    | [] => (0xFFFD, [])
  else if 0xE0 ≤ b ∧ b < 0xF0 then
    match rest with
    | b2 :: b3 :: rest3 =>
      if (0x80 ≤ b2 ∧ b2 < 0xC0) ∧ (0x80 ≤ b3 ∧ b3 < 0xC0) then
        ((b - 0xE0) * 4096 + (b2 - 0x80) * 64 + (b3 - 0x80), rest3)
      else (0xFFFD, b2 :: b3 :: rest3)
    | l => (0xFFFD, l)
  else if 0xF0 ≤ b ∧ b < 0xF8 then
    match rest with
    | b2 :: b3 :: b4 :: rest4 =>
      if (0x80 ≤ b2 ∧ b2 < 0xC0) ∧ (0x80 ≤ b3 ∧ b3 < 0xC0) ∧ (0x80 ≤ b4 ∧ b4 < 0xC0) then
        ((b - 0xF0) * 262144 + (b2 - 0x80) * 4096 + (b3 - 0x80) * 64 + (b4 - 0x80), rest4)
      else (0xFFFD, b2 :: b3 :: b4 :: rest4)
    | l => (0xFFFD, l)
  else (0xFFFD, rest)

/-- The UTF-8 decoding loop; each step consumes at least one byte, so
fuel equal to the byte count always suffices. -/
def utf8DecodeList : Nat → List Nat → List Nat
  | 0, _ => []
  | _ + 1, [] => []
  | fuel + 1, b :: rest =>
    (utf8Step b rest).1 :: utf8DecodeList fuel (utf8Step b rest).2

/-- UTF-8 decoding of a byte list to Unicode scalar values. -/
def utf8Decode (l : List Nat) : List Nat := utf8DecodeList l.length l

def b64Chars : List Char :=
  "ABCDEFGHIJKLMNOPQRSTUVWXYZabcdefghijklmnopqrstuvwxyz0123456789+/".data

def b64Char (n : Nat) : Char := b64Chars.getD n '?'

def b64IndexAux : List Char → Nat → Char → Option Nat
  | [], _, _ => none
  | x :: xs, i, c => if x = c then some i else b64IndexAux xs (i + 1) c

/-- Value of a base64 alphabet character (`0` for characters outside
the alphabet, which `atob` would reject; such inputs are never produced
by the encoder). -/
def b64Value (c : Char) : Nat := (b64IndexAux b64Chars 0 c).getD 0

/-- `btoa` on a byte list: 3 bytes become 4 alphabet characters, with
`=` padding. -/
def base64EncodeBytes : List Nat → List Char
  | [] => []
  | [a] => [b64Char (a / 4), b64Char (a % 4 * 16), '=', '=']
  | [a, b] => [b64Char (a / 4), b64Char (a % 4 * 16 + b / 16), b64Char (b % 16 * 4), '=']
  | a :: b :: c :: rest =>
    b64Char (a / 4) :: b64Char (a % 4 * 16 + b / 16) :: b64Char (b % 16 * 4 + c / 64)
      :: b64Char (c % 64) :: base64EncodeBytes rest

/-- `atob` on well-formed base64 text. -/
def base64DecodeChars : List Char → List Nat
  | c1 :: c2 :: c3 :: c4 :: rest =>
    let v1 := b64Value c1
    let v2 := b64Value c2
    if c3 = '=' then [v1 * 4 + v2 / 16]
    else
      let v3 := b64Value c3
      if c4 = '=' then [v1 * 4 + v2 / 16, v2 % 16 * 16 + v3 / 4]
      else
        (v1 * 4 + v2 / 16) :: (v2 % 16 * 16 + v3 / 4) :: (v3 % 4 * 64 + b64Value c4)
          :: base64DecodeChars rest
  | _ => []

/-- `utf8ToBase64`: UTF-8 encode, then base64. -/
def utf8ToBase64 (s : String) : String :=
  String.mk (base64EncodeBytes (utf8Encode s))

/-- `base64ToUtf8`: base64 decode, then UTF-8 decode. -/
def base64ToUtf8 (b : String) : String :=
  String.mk ((utf8Decode (base64DecodeChars b.data)).map Char.ofNat)

/-! ### `JSON.stringify(v, null, 2)` -/

def spacesIndent (n : Nat) : String := String.mk (List.replicate n ' ')

def hexDigitChar (n : Nat) : Char :=
  if n < 10 then Char.ofNat ('0'.toNat + n) else Char.ofNat ('a'.toNat + n - 10)

def quoteJsonChar (c : Char) : List Char :=
  if c = '"' then ['\\', '"']
  else if c = '\\' then ['\\', '\\']
  else if c = '\n' then ['\\', 'n']
  else if c = '\r' then ['\\', 'r']
  else if c = '\t' then ['\\', 't']
  else if c.toNat = 8 then ['\\', 'b']
  else if c.toNat = 12 then ['\\', 'f']
  else if c.toNat < 0x20 then
    ['\\', 'u', '0', '0', hexDigitChar (c.toNat / 16), hexDigitChar (c.toNat % 16)]
  else [c]

def quoteJson (s : String) : String :=
  "\"" ++ String.mk (s.data.foldr (fun c acc => quoteJsonChar c ++ acc) []) ++ "\""

mutual

def prettyVal (ind : Nat) : Json → String
  | .null => "null"
  | .bool true => "true"
  | .bool false => "false"
  | .num q => ratDecimalString q
  | .str s => quoteJson s
  | .arr [] => "[]"
  | .arr (x :: xs) =>
    "[\n" ++ prettyElemsJ (ind + 2) (x :: xs) ++ "\n" ++ spacesIndent ind ++ "]"
  | .obj [] => "\x7b\x7d"
  | .obj (f :: fs) =>
    "\x7b\n" ++ prettyFieldsJ (ind + 2) (f :: fs) ++ "\n" ++ spacesIndent ind ++ "\x7d"

def prettyElemsJ (ind : Nat) : List Json → String
  | [] => ""
  | [x] => spacesIndent ind ++ prettyVal ind x
  | x :: y :: xs =>
    spacesIndent ind ++ prettyVal ind x ++ ",\n" ++ prettyElemsJ ind (y :: xs)

def prettyFieldsJ (ind : Nat) : List (String × Json) → String
  | [] => ""
  | [(k, v)] => spacesIndent ind ++ quoteJson k ++ ": " ++ prettyVal ind v
  | (k, v) :: g :: fs =>
    spacesIndent ind ++ quoteJson k ++ ": " ++ prettyVal ind v ++ ",\n"
      ++ prettyFieldsJ ind (g :: fs)

end

/-- `JSON.stringify(v, null, 2)`. -/
def prettyPrint (j : Json) : String := prettyVal 0 j

/-! ### Viewer options and pricing constants -/

structure ViewerOptions where
  collapseOutputCharThreshold : Nat
  collapseOutputLineThreshold : Nat
  showTokenUsage : Bool
  showCumulativeCostOverlay : Bool
deriving DecidableEq

/-- `DEFAULT_VIEWER_OPTIONS` (thresholds 15000 chars / 300 lines, token
usage hidden) together with `DEFAULT_SHOW_CUMULATIVE_COST_OVERLAY`. -/
def defaultOptions : ViewerOptions :=
  ⟨15000, 300, false, true⟩

def TOKEN_PRICE_INPUT_PER_1M : ℚ := 175 / 100

def TOKEN_PRICE_OUTPUT_PER_1M : ℚ := 14

def TOKEN_PRICE_INPUT_PER_TOKEN : ℚ := TOKEN_PRICE_INPUT_PER_1M / 1000000

def TOKEN_PRICE_OUTPUT_PER_TOKEN : ℚ := TOKEN_PRICE_OUTPUT_PER_1M / 1000000

/-! ### Blocks: the semantic content of each HTML template -/

/-- Plan checklist status symbols (`sym` in `renderPlanUpdate`). -/
inductive PlanSym where
  | done
  | pending
  | todo
deriving DecidableEq

/-- One rendered output unit, one constructor per HTML template of the
source.  Text fields hold the template's content before HTML escaping;
presentation chrome (CSS, inline timestamps, buttons) is abstracted. -/
inductive Block where
  | unparsed (line : String)
  | reasoning (text : String)
  | message (isUser : Bool) (text : String)
  | plan (explanation : String) (items : List (PlanSym × String))
  | applyPatch (patch : String) (rawB64 : String)
  | funcCall (name : String) (body : String)
  | funcOutput (body : String) (initiallyCollapsed : Bool)
  | usage (totalRows lastRows : List (String × String)) (mcw : Option String)
  | unknown (label : String) (pretty : String)

/-- The `collapsible` CSS class: reasoning, apply-patch and
function-output blocks are collapsible. -/
def Block.collapsible : Block → Bool
  | .reasoning _ => true
  | .applyPatch _ _ => true
  | .funcOutput _ _ => true
  | _ => false

/-- Whether a block starts collapsed (only auto-collapsed large
function outputs do). -/
def Block.isInitiallyCollapsed : Block → Bool
  | .funcOutput _ c => c
  | _ => false

/-- A top-level element of the rendered document: the session header is
a `'session'` div (not a `'block'` div), everything else is a block. -/
inductive Item where
  | session (sourcePath : String) (fields : List (String × String))
  | block (b : Block)

/-- One analytics sample (`tokenSeries` entry). -/
structure Sample where
  ts : Json
  progress : Nat
  inputTokens : ℚ
  outputTokens : ℚ
  turnPriceUsd : ℚ
  cumulativePriceUsd : Option ℚ

/-- One element of a render trace: an emitted item, an analytics
sample, a user-intervention marker, or an available filter class. -/
inductive OutElem where
  | item (it : Item)
  | sample (s : Sample)
  | intervention (progress : Nat)
  | fclass (cls : String)

/-! ### Field-level helpers shared by the renderers -/

/-- `parseJsonStringMaybe`: a non-null object/array is accepted as-is,
a string is attempted as JSON, anything else is `[null, false]`. -/
def parseJsonStringMaybe : Option Json → Json × Bool
  | some (.obj fs) => (.obj fs, true)
  | some (.arr xs) => (.arr xs, true)
  | some (.str s) =>
    match jsonParse s with
    | some p => (p, true)
    | none => (.str s, false)
  | some .null => (.null, false)
  | some (.bool _) => (.null, false)
  | some (.num _) => (.null, false)
  | none => (.null, false)

/-- The `ok && argsObj && typeof argsObj === "object" &&
!Array.isArray(argsObj)` test, yielding the object's fields. -/
def objArg (p : Json × Bool) : Option (List (String × Json)) :=
  if p.2 then
    match p.1 with
    | .obj fs => some fs
    | _ => none
  else none

/-- `for (const x of (v || []))`: arrays iterate their elements,
strings iterate their characters (as one-character strings); any other
truthy value is not iterable, so the loop throws. -/
def iterateJs (v : Option Json) : Except Unit (List Json) :=
  match jsOrElse v (.arr []) with
  | .arr xs => .ok xs
  | .str s => .ok (s.data.map (fun c => Json.str (String.mk [c])))
  | _ => .error ()

/-- Join array elements with a separator, coercing each element with
`String(...)` except `null`, which joins as the empty string. -/
def jsJoin (sep : String) (vs : List Json) : String :=
  String.intercalate sep (vs.map (fun v => match v with | .null => "" | w => jsString w))

/-! ### The individual renderers -/

def isSummaryText (p : Json) : Bool :=
  truthy p && (match p.getP "type" with | some (.str t) => t == "summary_text" | _ => false)

/-- `renderReasoning`: concatenate `summary_text` segments, fall back
to a non-blank raw `text` field, else pretty-print the whole record. -/
def renderReasoning (entry : Json) : Except Unit Block := do
  let parts ← iterateJs (entry.getP "summary")
  let rawTexts := parts.filterMap (fun p =>
    if isSummaryText p then some (jsOrElse (p.getP "text") (.str "")) else none)
  let rawTexts :=
    if rawTexts.isEmpty then
      match entry.getP "text" with
      | some (.str t) => if jsTrim t ≠ "" then [Json.str t] else []
      | _ => []
    else rawTexts
  if rawTexts.isEmpty then
    return .reasoning (prettyPrint entry)
  else
    return .reasoning (jsJoin "\n\n" rawTexts)

/-- `renderMessage`: join the string `text` fields of truthy content
parts; role `user` against anything else. -/
def renderMessage (entry : Json) : Except Unit Block := do
  let isUser := match entry.getP "role" with | some (.str r) => r == "user" | _ => false
  let parts ← iterateJs (entry.getP "content")
  let texts := parts.filterMap (fun p =>
    if truthy p then
      match p.getP "text" with
      | some (.str t) => some t
      | _ => none
    else none)
  return .message isUser (String.intercalate "\n\n" texts)

/-- `sym`: status symbol from the lower-cased string form of a status
value. -/
def planSymOf (status : Json) : PlanSym :=
  let normalized := (jsString status).toLower
  if normalized = "completed" then .done
  else if normalized = "in_progress" then .pending
  else .todo

/-- `renderPlanUpdate`: explanation text plus one checklist entry per
plan item.  (A truthy non-string explanation renders as an empty
markdown body; that collapses to the same empty text here.) -/
def renderPlanUpdate (argsObj : Json) : Except Unit Block := do
  let expVal := jsOrElse (argsObj.getP "explanation") (.str "")
  let explanationTxt := match expVal with | .str s => s | _ => ""
  let planItems ← iterateJs (argsObj.getP "plan")
  let items := planItems.map (fun item =>
    let stepVal := if truthy item then jsOrElse (item.getP "step") (.str "") else .str ""
    let statusVal := if truthy item then jsOrElse (item.getP "status") (.str "pending") else .str "pending"
    (planSymOf statusVal, jsString stepVal))
  return .plan explanationTxt items

/-- `extractPatchFromCommand` scan phase: first element whose string
form contains a `*** Begin Patch ... *** End Patch` envelope. -/
def splitFirstAux (needle : List Char) : List Char → Option (List Char × List Char)
  | [] => none
  | c :: cs =>
    if needle.isPrefixOf (c :: cs) then some ([], (c :: cs).drop needle.length)
    else (splitFirstAux needle cs).map (fun r => (c :: r.1, r.2))

/-- The regex `/\*\*\* Begin Patch([\s\S]*?)\*\*\* End Patch/` : first
`*** Begin Patch`, then lazily up to the first following
`*** End Patch`, reassembled with both sentinels. -/
def envelopeOf (s : String) : Option String :=
  match splitFirstAux "*** Begin Patch".data s.data with
  | none => none
  | some (_, rest) =>
    match splitFirstAux "*** End Patch".data rest with
    | none => none
    | some (mid, _) => some ("*** Begin Patch" ++ String.mk mid ++ "*** End Patch")

def scanEnvelope : List Json → Option String
  | [] => none
  | x :: xs =>
    match envelopeOf (jsString x) with
    | some p => some p
    | none => scanEnvelope xs

/-- `extractPatchFromCommand`: only arrays qualify; the explicit
two-element `apply_patch` form wins, otherwise the elements are scanned
for a patch envelope. -/
def extractPatchFromCommand : Option Json → Option String
  | some (.arr (x0 :: x1 :: rest)) =>
    if jsString x0 = "apply_patch" then some (jsString x1)
    else scanEnvelope (x0 :: x1 :: rest)
  | some (.arr xs) => scanEnvelope xs
  | _ => none

def isPlanUpdateFunctionCall (entry : Json) : Bool :=
  (match entry.getP "name" with | some (.str n) => n == "update_plan" | _ => false)
    && (objArg (parseJsonStringMaybe (entry.getP "arguments"))).isSome

/-- `renderFunctionCall`: plan update, apply-patch, shell command line,
pretty-printed object, or raw argument text — in that order. -/
def renderFunctionCall (entry : Json) : Except Unit Block := do
  let nameVal := jsOrElse (entry.getP "name") (.str "function")
  let argsRaw := entry.getP "arguments"
  match objArg (parseJsonStringMaybe argsRaw) with
  | some fs =>
    if (match nameVal with | .str n => n == "update_plan" | _ => false) then
      renderPlanUpdate (.obj fs)
    else
      match extractPatchFromCommand (lookupField fs "command") with
      | some patch => return .applyPatch patch (utf8ToBase64 patch)
      | none =>
        match lookupField fs "command" with
        | some (.arr cmd) =>
          return .funcCall (jsString nameVal)
            ("$ " ++ String.intercalate " " (cmd.map jsString))
        | _ => return .funcCall (jsString nameVal) (prettyPrint (.obj fs))
  | none => return .funcCall (jsString nameVal) (jsStringOpt argsRaw)

/-- `renderFunctionOutput`: unwrap a nested `output` field if the
decoded payload is an object carrying one, stringify non-string bodies,
then auto-collapse when the body reaches either threshold.  A missing
`output` field leaves `body` as `undefined` whose `.length` access
throws. -/
def funcOutputBody (entry : Json) : Option String :=
  let outRaw := entry.getP "output"
  let body0 : Option Json :=
    match parseJsonStringMaybe outRaw with
    | (.obj fs, true) =>
      if (lookupField fs "output").isSome then lookupField fs "output" else outRaw
    | _ => outRaw
  body0.map (fun v => match v with | .str s => s | w => prettyPrint w)

def renderFunctionOutput (opts : ViewerOptions) (entry : Json) : Except Unit Block :=
  match funcOutputBody entry with
  | none => .error ()
  | some body =>
    .ok (.funcOutput body
      (jsLength body ≥ opts.collapseOutputCharThreshold
        ∨ lineSegCount body ≥ opts.collapseOutputLineThreshold))

def usageRowKeys : List (String × String) :=
  [("input_tokens", "Input"), ("cached_input_tokens", "Cached Input"),
   ("output_tokens", "Output"), ("reasoning_output_tokens", "Reasoning"),
   ("total_tokens", "Total")]

def usageRows (data : Json) : List (String × String) :=
  usageRowKeys.filterMap (fun kv =>
    match data.getP kv.1 with
    | some .null => none
    | some v => some (kv.2, jsString v)
    | none => none)

/-- `renderTokenUsage`: total / last-call token rows plus the model
context window when present. -/
def renderTokenUsage (entry : Json) : Block :=
  let info := jsOrElse (entry.getP "info") (.obj [])
  let total := jsOrElse (info.getP "total_token_usage") (.obj [])
  let last := jsOrElse (info.getP "last_token_usage") (.obj [])
  let mcw := match info.getP "model_context_window" with
    | some .null => none
    | some v => some (jsString v)
    | none => none
  .usage (usageRows total) (usageRows last) mcw

/-- The metrics read from one usage event. -/
structure TokenMetrics where
  inputTokens : ℚ
  outputTokens : ℚ
  turnPriceUsd : ℚ
  cumulativePriceUsd : Option ℚ
deriving DecidableEq

/-- `readTokenMetrics`: `none` unless both last-call token counts are
finite numbers; the cumulative price additionally needs finite
running-total counts. -/
def lastUsageField (entry : Json) (key : String) : Option Json :=
  ((jsOrElse ((jsOrElse (entry.getP "info") (.obj [])).getP "last_token_usage")
    (.obj []))).getP key

def totalUsageField (entry : Json) (key : String) : Option Json :=
  ((jsOrElse ((jsOrElse (entry.getP "info") (.obj [])).getP "total_token_usage")
    (.obj []))).getP key

def readTokenMetrics (entry : Json) : Option TokenMetrics :=
  match jsNumber (lastUsageField entry "input_tokens"),
      jsNumber (lastUsageField entry "output_tokens") with
  | some inT, some outT =>
    let turn := inT * TOKEN_PRICE_INPUT_PER_TOKEN + outT * TOKEN_PRICE_OUTPUT_PER_TOKEN
    let cum :=
      match jsNumber (totalUsageField entry "input_tokens"),
          jsNumber (totalUsageField entry "output_tokens") with
      | some ti, some tu => some (ti * TOKEN_PRICE_INPUT_PER_TOKEN + tu * TOKEN_PRICE_OUTPUT_PER_TOKEN)
      | _, _ => none
    some ⟨inT, outT, turn, cum⟩
  | _, _ => none

def truthyField (j : Json) (key label : String) : List (String × String) :=
  match j.getP key with
  | some v => if truthy v then [(label, jsString v)] else []
  | none => []

/-- The labelled fields of the session header: session id / start time
/ git metadata, in source order. -/
def sessionHeaderParts (meta : Json) : List (String × String) :=
  truthyField meta "id" "Session" ++ truthyField meta "timestamp" "Started"
    ++ truthyField (jsOrElse (meta.getP "git") (.obj [])) "repository_url" "Repo"
    ++ truthyField (jsOrElse (meta.getP "git") (.obj [])) "branch" "Branch"
    ++ truthyField (jsOrElse (meta.getP "git") (.obj [])) "commit_hash" "Commit"

/-- `renderSessionHeader`: the empty-string result for a metadata-free
record (later dropped by `blocks.filter(Boolean)`) is `none`. -/
def renderSessionHeader (meta : Json) (sourcePath : String) : Option Item :=
  if (sessionHeaderParts meta).isEmpty then none
  else some (.session sourcePath (sessionHeaderParts meta))

/-! ### The line-by-line pipeline (`renderJsonl`) -/

/-- Mutable loop state of `renderJsonl`. -/
structure RState where
  wrappedMode : Option Bool
  sessionHeaderDone : Bool
  progress : Nat
deriving DecidableEq

def initState : RState := ⟨none, false, 0⟩

/-- The sticky wrapped-shape test on the first parsed record: a
`payload` and a `timestamp` key both present at top level. -/
def detectWrapped (raw : Json) : Bool :=
  raw.hasOwn "payload" ∧ raw.hasOwn "timestamp"

/-- Normalisation of one parsed record; property access on a record
that parsed to JSON `null` throws. -/
def normalizeEntry (mode : Bool) (raw : Json) : Except Unit (Json × Json × Json) :=
  match raw with
  | .null => .error ()
  | _ =>
    if mode then
      .ok (jsOrElse (raw.getP "payload") (.obj []),
        jsOrElse (raw.getP "type") .null,
        jsOrElse (raw.getP "timestamp") (.str ""))
    else
      .ok (raw, .null, jsOrElse (raw.getP "timestamp") (.str ""))

/-- The session-header trigger: a truthy `timestamp`, `git` or
`instructions` field. -/
def headerTrigger (entry : Json) : Bool :=
  truthyOpt (entry.getP "timestamp") ∨ truthyOpt (entry.getP "git")
    ∨ truthyOpt (entry.getP "instructions")

/-- The strict-equality test `entry.type === s`. -/
def typeIs (entry : Json) (s : String) : Bool :=
  match entry.getP "type" with
  | some (.str t) => t == s
  | _ => false

/-- Classification and block construction for one normalised event
(the body of the `renderJsonl` loop after parsing). -/
def dispatchEntry (opts : ViewerOptions) (sourcePath : String) (st : RState) (cur : Nat)
    (entry outer tsRaw : Json) : Except Unit (RState × List OutElem) :=
  if ¬ st.sessionHeaderDone ∧ headerTrigger entry then
    .ok ({ st with sessionHeaderDone := true },
      if (sessionHeaderParts entry).isEmpty then []
      else [.item (.session sourcePath (sessionHeaderParts entry))])
  else
    if typeIs entry "reasoning" then
      match renderReasoning entry with
      | .error e => .error e
      | .ok b => .ok (st, [.fclass "reasoning", .item (.block b)])
    else if typeIs entry "message" then
      match renderMessage entry with
      | .error e => .error e
      | .ok b =>
        if (match entry.getP "role" with | some (.str r) => r == "user" | _ => false) then
          .ok (st, [.intervention cur, .fclass "user", .item (.block b)])
        else
          .ok (st, [.fclass "assistant", .item (.block b)])
    else if typeIs entry "function_call" then
      match renderFunctionCall entry with
      | .error e => .error e
      | .ok b =>
        .ok (st, [.fclass (if isPlanUpdateFunctionCall entry then "plan" else "func-call"),
          .item (.block b)])
    else if typeIs entry "function_call_output" then
      match renderFunctionOutput opts entry with
      | .error e => .error e
      | .ok b => .ok (st, [.fclass "func-output", .item (.block b)])
    else if typeIs entry "user_message" then
      match renderMessage (.obj [("role", .str "user"),
          ("content", .arr [.obj [("type", .str "input_text"),
            ("text", jsOrElse (entry.getP "message") (.str ""))]])]) with
      | .error e => .error e
      | .ok b => .ok (st, [.intervention cur, .fclass "user", .item (.block b)])
    else if typeIs entry "agent_message" then
      match renderMessage (.obj [("role", .str "assistant"),
          ("content", .arr [.obj [("type", .str "output_text"),
            ("text", jsOrElse (entry.getP "message") (.str ""))]])]) with
      | .error e => .error e
      | .ok b => .ok (st, [.fclass "assistant", .item (.block b)])
    else if typeIs entry "agent_reasoning" then
      match renderReasoning (.obj [("summary",
          .arr [.obj [("type", .str "summary_text"),
            ("text", jsOrElse (entry.getP "text") (.str ""))]])]) with
      | .error e => .error e
      | .ok b => .ok (st, [.fclass "reasoning", .item (.block b)])
    else if typeIs entry "token_count" then
      let sampleElems : List OutElem :=
        match readTokenMetrics entry with
        | some m =>
          [.sample ⟨tsRaw, cur, m.inputTokens, m.outputTokens, m.turnPriceUsd,
            m.cumulativePriceUsd⟩]
        | none => []
      .ok (st, .fclass "usage" :: sampleElems ++ [.item (.block (renderTokenUsage entry))])
    else
      .ok (st, [.fclass "func-output",
        .item (.block (.unknown
          (jsString (jsOrElse (entry.getP "type")
            (jsOrElse (some outer) (jsOrElse (entry.getP "record_type") (.str "unknown")))))
          (prettyPrint entry)))])

/-- The mode used for this record: the sticky `wrappedMode` when
already decided, else detected from this (first parsed) record. -/
def currentMode (st : RState) (raw : Json) : Bool :=
  match st.wrappedMode with
  | some m => m
  | none => detectWrapped raw

/-- Processing of one raw input line: trim, skip blanks, fall back to
an unparsed block on JSON failure, otherwise normalise and dispatch
(assigning the progress index before branching). -/
def processLine (opts : ViewerOptions) (sourcePath : String) (st : RState)
    (lineRaw : String) : Except Unit (RState × List OutElem) :=
  if jsTrim lineRaw = "" then .ok (st, [])
  else
    match jsonParse (jsTrim lineRaw) with
    | none => .ok (st, [.item (.block (.unparsed (jsTrim lineRaw)))])
    | some raw =>
      match normalizeEntry (currentMode st raw) raw with
      | .error e => .error e
      | .ok (entry, outer, ts) =>
        dispatchEntry opts sourcePath
          ⟨some (currentMode st raw), st.sessionHeaderDone, st.progress + 1⟩
          st.progress entry outer ts

def processLines (opts : ViewerOptions) (sourcePath : String) (st : RState) :
    List String → Except Unit (RState × List OutElem)
  | [] => .ok (st, [])
  | l :: ls =>
    match processLine opts sourcePath st l with
    | .error e => .error e
    | .ok (st1, tr1) =>
      match processLines opts sourcePath st1 ls with
      | .error e => .error e
      | .ok (st2, tr2) => .ok (st2, tr1 ++ tr2)

def splitCharsOnNl : List Char → List (List Char)
  | [] => [[]]
  | c :: cs =>
    match splitCharsOnNl cs with
    | [] => [[c]]
    | g :: gs => if c = '\n' then [] :: g :: gs else (c :: g) :: gs

/-- `jsonlText.split(/\r?\n/)`: modelled as splitting on `'\n'`; a
carriage return left at a segment's end is removed by the `trim` every
consumer applies first. -/
def splitLines (s : String) : List String := (splitCharsOnNl s.data).map String.mk

/-- The whole `renderJsonl` loop.  The returned state's
`sessionHeaderDone` records whether a line was absorbed as the session
header; the trace carries blocks, analytics samples, intervention
markers and observed filter classes.  (The "No events rendered"
placeholder, the chart SVG and the toolbar markup are assembled from
these and are not separate line output.) -/
def renderJsonl (jsonlText sourcePath : String) (opts : ViewerOptions) :
    Except Unit (RState × List OutElem) :=
  processLines opts sourcePath initState (splitLines jsonlText)

/-! ### Trace projections -/

def blocksOfTrace (tr : List OutElem) : List Block :=
  tr.filterMap (fun e => match e with | .item (.block b) => some b | _ => none)

def itemsOfTrace (tr : List OutElem) : List Item :=
  tr.filterMap (fun e => match e with | .item it => some it | _ => none)

def samplesOfTrace (tr : List OutElem) : List Sample :=
  tr.filterMap (fun e => match e with | .sample s => some s | _ => none)

def interventionsOfTrace (tr : List OutElem) : List Nat :=
  tr.filterMap (fun e => match e with | .intervention p => some p | _ => none)

def filterClassesOfTrace (tr : List OutElem) : List String :=
  tr.filterMap (fun e => match e with | .fclass c => some c | _ => none)

def nonblankCountLines (lines : List String) : Nat :=
  (lines.filter (fun l => jsTrim l ≠ "")).length

def nonblankLineCount (text : String) : Nat :=
  nonblankCountLines (splitLines text)

/-- `1` when the session header has been absorbed, else `0`. -/
def headerCount (st : RState) : Nat := if st.sessionHeaderDone then 1 else 0

/-! ### Filter state (toolbar defaults, persistence) -/

/-- `FILTER_OPTIONS`: category class and compiled-in default
visibility, in toolbar order. -/
def FILTER_OPTIONS : List (String × Bool) :=
  [("user", true), ("assistant", true), ("reasoning", true), ("func-call", true),
   ("func-output", true), ("plan", true), ("usage", false)]

/-- The checkbox set `renderToolbar` emits: the fixed options filtered
to the classes observed in this stream, the usage checkbox defaulting
to `showTokenUsage` and every other to its compiled-in default. -/
def renderToolbarCheckboxes (showTokenUsage : Bool) (available : List String) :
    List (String × Bool) :=
  (FILTER_OPTIONS.filter (fun o => available.contains o.1)).map
    (fun o => (o.1, if o.1 = "usage" then showTokenUsage else o.2))

/-- JavaScript object write `state[cls] = v` on an association list. -/
def setEntryB : List (String × Bool) → String → Bool → List (String × Bool)
  | [], k, v => [(k, v)]
  | (k', v') :: fs, k, v =>
    if k' = k then (k, v) :: fs else (k', v') :: setEntryB fs k v

def lookupEntryB : List (String × Bool) → String → Option Bool
  | [], _ => none
  | (k, v) :: fs, key => if k = key then some v else lookupEntryB fs key

/-- `saveFilterState`: store every checkbox's class and checked flag as
one object. -/
def saveFilterState (cbs : List (String × Bool)) : List (String × Bool) :=
  cbs.foldl (fun st kv => setEntryB st kv.1 kv.2) []

/-- `loadFilterState`: the usage checkbox is always set from the
current session's default; every other checkbox takes its stored value
when one exists, and keeps its current state otherwise. -/
def loadFilterState (defaultUsageVisible : Bool) (stored : Option (List (String × Bool)))
    (cbs : List (String × Bool)) : List (String × Bool) :=
  cbs.map (fun kv =>
    if kv.1 = "usage" then (kv.1, defaultUsageVisible)
    else
      match stored with
      | some st =>
        match lookupEntryB st kv.1 with
        | some v => (kv.1, v)
        | none => kv
      | none => kv)

/-! ### Concrete documents, entries and traces used in the theorems -/

/-- Concrete documents and traces used to instantiate the theorems. -/
def c1DocW : String :=
  "\x7b\"timestamp\":\"T\",\"git\":\x7b\"branch\":\"b\"\x7d\x7d\n\x7b\"type\":\"message\",\"role\":\"user\",\"content\":[\x7b\"text\":\"hi\"\x7d]\x7d\njunk"

def c1TraceW : List OutElem :=
  [.item (.session "src" [("Started", "T"), ("Branch", "b")]),
   .intervention 1, .fclass "user", .item (.block (.message true "hi")),
   .item (.block (.unparsed "junk"))]

def c2PreW : List String := ["\x7b\"type\":\"weird\"\x7d"]

def c2PostW : List String := ["\x7b\"type\":\"agent_message\",\"message\":\"m\"\x7d"]

def c2StW : RState := ⟨some false, false, 1⟩

def c2TrW : List OutElem :=
  [.fclass "func-output",
   .item (.block (.unknown "weird" (prettyPrint (Json.obj [("type", Json.str "weird")]))))]

def c3WrappedDoc : String :=
  "\x7b\"timestamp\":\"T\",\"type\":\"O\",\"payload\":\x7b\"type\":\"message\",\"role\":\"user\",\"content\":[\x7b\"text\":\"hi\"\x7d]\x7d\x7d"

def c3LegacyDoc : String :=
  "\x7b\"type\":\"message\",\"role\":\"user\",\"content\":[\x7b\"text\":\"hi\"\x7d]\x7d"

def c4EntryW : Json :=
  .obj [("type", .str "token_count"),
    ("info", .obj [("last_token_usage",
      .obj [("input_tokens", .str "abc"), ("output_tokens", .num 0)])])]

def c4TraceW : List OutElem :=
  [.fclass "usage", .item (.block (renderTokenUsage c4EntryW))]

def c5DocCE : String :=
  "\x7b\"type\":\"function_call_output\",\"output\":\"aaaaa\"\x7d"

def c5OptsCE : ViewerOptions := ⟨5, 300, false, true⟩

def c5Body20000 : String := String.mk (List.replicate 20000 'a')

def c5Body5000 : String := String.mk (List.replicate 5000 'a')

def c5Entry20000 : Json :=
  .obj [("type", .str "function_call_output"), ("output", .str c5Body20000)]

def c5Entry5000 : Json :=
  .obj [("type", .str "function_call_output"), ("output", .str c5Body5000)]

def c6EntryInput : Json :=
  .obj [("info", .obj [("last_token_usage",
    .obj [("input_tokens", .num 1000000), ("output_tokens", .num 0)])])]

def c6EntryOutput : Json :=
  .obj [("info", .obj [("last_token_usage",
    .obj [("input_tokens", .num 0), ("output_tokens", .num 1000000)])])]

def c6MetricsInput : TokenMetrics :=
  ⟨1000000, 0, 1000000 * TOKEN_PRICE_INPUT_PER_TOKEN + 0 * TOKEN_PRICE_OUTPUT_PER_TOKEN, none⟩

def c6MetricsOutput : TokenMetrics :=
  ⟨0, 1000000, 0 * TOKEN_PRICE_INPUT_PER_TOKEN + 1000000 * TOKEN_PRICE_OUTPUT_PER_TOKEN, none⟩

def c7CmdW : List Json :=
  [.str "apply_patch", .str "X", .str "*** Begin Patch\nB\n*** End Patch"]

def c8PrevW : List (String × Bool) :=
  [("user", false), ("usage", true), ("reasoning", false)]

def c8FreshW : List (String × Bool) :=
  renderToolbarCheckboxes false ["user", "reasoning", "usage"]

/-! ## Theorems -/

theorem blocksOfTrace_append (a b : List OutElem) :
    blocksOfTrace (a ++ b) = blocksOfTrace a ++ blocksOfTrace b := by
  simp only [blocksOfTrace, List.filterMap_append]

/-- Every non-header classification branch emits exactly one block and
leaves the header flag alone; the header branch emits no block and sets
it: one unit of "block or absorbed header" per dispatched record. -/
theorem dispatchEntry_blockCount (opts : ViewerOptions) (src : String) (st : RState)
    (cur : Nat) (entry outer ts : Json) (st' : RState) (tr : List OutElem)
    (h : dispatchEntry opts src st cur entry outer ts = .ok (st', tr)) :
    (blocksOfTrace tr).length + headerCount st' = 1 + headerCount st := by
  unfold dispatchEntry at h
  by_cases hh : ¬ st.sessionHeaderDone = true ∧ headerTrigger entry = true
  · rw [if_pos hh] at h
    have hsd : st.sessionHeaderDone = false := by
      rcases hh with ⟨h1, _⟩
      cases hs : st.sessionHeaderDone
      · rfl
      · exact absurd hs h1
    split at h
    all_goals
      (injection h with g1; injection g1 with g1 g2; subst g1; subst g2;
        simp [blocksOfTrace, headerCount, hsd])
  rw [if_neg hh] at h
  by_cases hB1 : typeIs entry "reasoning" = true
  · rw [if_pos hB1] at h
    split at h
    · exact absurd h (by simp)
    · injection h with g1
      injection g1 with g1 g2
      subst g1; subst g2
      simp [blocksOfTrace, headerCount]
  rw [if_neg hB1] at h
  by_cases hB2 : typeIs entry "message" = true
  · rw [if_pos hB2] at h
    split at h
    · exact absurd h (by simp)
    · split at h
      all_goals
        (injection h with g1; injection g1 with g1 g2; subst g1; subst g2;
          simp [blocksOfTrace, headerCount])
  rw [if_neg hB2] at h
  by_cases hB3 : typeIs entry "function_call" = true
  · rw [if_pos hB3] at h
    split at h
    · exact absurd h (by simp)
    · injection h with g1
      injection g1 with g1 g2
      subst g1; subst g2
      simp [blocksOfTrace, headerCount]
  rw [if_neg hB3] at h
  by_cases hB4 : typeIs entry "function_call_output" = true
  · rw [if_pos hB4] at h
    split at h
    · exact absurd h (by simp)
    · injection h with g1
      injection g1 with g1 g2
      subst g1; subst g2
      simp [blocksOfTrace, headerCount]
  rw [if_neg hB4] at h
  by_cases hB5 : typeIs entry "user_message" = true
  · rw [if_pos hB5] at h
    split at h
    · exact absurd h (by simp)
    · injection h with g1
      injection g1 with g1 g2
      subst g1; subst g2
      simp [blocksOfTrace, headerCount]
  rw [if_neg hB5] at h
  by_cases hB6 : typeIs entry "agent_message" = true
  · rw [if_pos hB6] at h
    split at h
    · exact absurd h (by simp)
    · injection h with g1
      injection g1 with g1 g2
      subst g1; subst g2
      simp [blocksOfTrace, headerCount]
  rw [if_neg hB6] at h
  by_cases hB7 : typeIs entry "agent_reasoning" = true
  · rw [if_pos hB7] at h
    split at h
    · exact absurd h (by simp)
    · injection h with g1
      injection g1 with g1 g2
      subst g1; subst g2
      simp [blocksOfTrace, headerCount]
  rw [if_neg hB7] at h
  by_cases hB8 : typeIs entry "token_count" = true
  · rw [if_pos hB8] at h
    injection h with g1
    injection g1 with g1 g2
    subst g1; subst g2
    rcases hm : readTokenMetrics entry with _ | m <;>
      simp [hm, blocksOfTrace, headerCount]
  rw [if_neg hB8] at h
  injection h with g1
  injection g1 with g1 g2
  subst g1; subst g2
  simp [blocksOfTrace, headerCount]

theorem processLine_blockCount (opts : ViewerOptions) (src : String) (st : RState)
    (l : String) (st' : RState) (tr : List OutElem)
    (h : processLine opts src st l = .ok (st', tr)) :
    (blocksOfTrace tr).length + headerCount st'
      = (if jsTrim l = "" then 0 else 1) + headerCount st := by
  unfold processLine at h
  split at h
  · rename_i hb
    injection h with g1
    injection g1 with g1 g2
    subst g1; subst g2
    simp [blocksOfTrace, hb]
  · rename_i hb
    split at h
    · injection h with g1
      injection g1 with g1 g2
      subst g1; subst g2
      simp [blocksOfTrace, hb]
    · rename_i raw hparse
      split at h
      · exact absurd h (by simp)
      · rename_i p e o t hnorm
        have hd := dispatchEntry_blockCount opts src
          ⟨some (currentMode st raw), st.sessionHeaderDone, st.progress + 1⟩
          st.progress e o t st' tr h
        simp only [headerCount] at hd ⊢
        simp [hb, hd]

theorem processLines_blockCount (opts : ViewerOptions) (src : String) :
    ∀ (lines : List String) (st st' : RState) (tr : List OutElem),
    processLines opts src st lines = .ok (st', tr) →
    (blocksOfTrace tr).length + headerCount st'
      = nonblankCountLines lines + headerCount st
  | [], st, st', tr, h => by
    simp only [processLines] at h
    injection h with g1
    injection g1 with g1 g2
    subst g1; subst g2
    simp [blocksOfTrace, nonblankCountLines]
  | l :: ls, st, st', tr, h => by
    simp only [processLines] at h
    split at h
    · exact absurd h (by simp)
    · rename_i st1 tr1 h1
      split at h
      · exact absurd h (by simp)
      · rename_i p2 st2 tr2 h2
        injection h with g1
        injection g1 with g1 g2
        subst g1; subst g2
        have e1 := processLine_blockCount opts src st l st1 tr1 h1
        have e2 := processLines_blockCount opts src ls st1 st2 tr2 h2
        rw [blocksOfTrace_append, List.length_append]
        simp only [nonblankCountLines, List.filter_cons, ne_eq, decide_not] at e2 ⊢
        by_cases hb : jsTrim l = ""
        · rw [if_pos hb] at e1
          simp [hb]
          omega
        · rw [if_neg hb] at e1
          simp [hb]
          omega

theorem processLines_append (opts : ViewerOptions) (src : String) :
    ∀ (xs ys : List String) (st : RState),
    processLines opts src st (xs ++ ys)
      = match processLines opts src st xs with
        | .error e => .error e
        | .ok (st1, tr1) => (processLines opts src st1 ys).map (fun r => (r.1, tr1 ++ r.2))
  | [], ys, st => by
    simp only [List.nil_append, processLines]
    cases hy : processLines opts src st ys with
    | error e => simp [Except.map]
    | ok r => simp [Except.map]
  | x :: xs, ys, st => by
    simp only [List.cons_append, processLines]
    cases hx : processLine opts src st x with
    | error e => rfl
    | ok r =>
      obtain ⟨st1, tr1⟩ := r
      simp only [List.append_eq]
      rw [processLines_append opts src xs ys st1]
      cases hxs : processLines opts src st1 xs with
      | error e => rfl
      | ok r2 =>
        obtain ⟨st2, tr2⟩ := r2
        cases hys : processLines opts src st2 ys with
        | error e => simp [hys, Except.map]
        | ok r3 => simp [hys, Except.map, List.append_assoc]

theorem processLine_unparsed (opts : ViewerOptions) (src : String) (st : RState)
    (bad : String) (hb : ¬ jsTrim bad = "") (hp : jsonParse (jsTrim bad) = none) :
    processLine opts src st bad = .ok (st, [.item (.block (.unparsed (jsTrim bad)))]) := by
  unfold processLine
  rw [if_neg hb, hp]

/-- C1 (amended): whenever the render completes, the number of emitted
Blocks equals the number of non-blank lines minus the lines absorbed
into the session header (one when a header was absorbed, else zero),
so no line is silently dropped — including unparseable or unrecognized
lines, which still yield exactly one Block each.  (The unamended claim
fails because a line parsing to JSON `null` aborts the whole render;
see the counterexample.) -/
theorem c1_blocks_per_line (jsonlText sourcePath : String) (opts : ViewerOptions)
    (st : RState) (tr : List OutElem)
    (h : renderJsonl jsonlText sourcePath opts = .ok (st, tr)) :
    (blocksOfTrace tr).length
      = nonblankLineCount jsonlText - (if st.sessionHeaderDone then 1 else 0) := by
  have e := processLines_blockCount opts sourcePath (splitLines jsonlText) initState st tr h
  have h0 : headerCount initState = 0 := rfl
  rw [h0] at e
  unfold nonblankLineCount
  simp only [headerCount] at e
  omega

/-- C1 witness: a document with a session-header line, a user message
and an unparseable line renders two Blocks out of three non-blank
lines, one line having been absorbed into the session header. -/
theorem c1_witness :
    (blocksOfTrace c1TraceW).length = nonblankLineCount c1DocW - 1 := by
  have hr : renderJsonl c1DocW "src" defaultOptions
      = .ok (⟨some false, true, 2⟩, c1TraceW) := by rfl
  have hc := c1_blocks_per_line c1DocW "src" defaultOptions ⟨some false, true, 2⟩ c1TraceW hr
  simpa using hc

/-- C1 counterexample: the single non-blank line `null` is valid JSON,
yet rendering it throws (a property access on the `null` record) and
the render aborts with no Blocks at all — the line is dropped and the
claimed count equation has no rendered output to hold of. -/
theorem c1_counterexample :
    renderJsonl "null" "src" defaultOptions = .error ()
      ∧ nonblankLineCount "null" = 1 :=
  ⟨rfl, rfl⟩

/-- C2 (amended): as long as the render completes, a non-blank line
that is not valid JSON contributes exactly one fallback Block carrying
its (trimmed) literal text, the loop state is untouched by it, and the
blocks of every other line are those of the document with the malformed
line removed.  (The unamended claim fails when another line aborts the
render; see the counterexample.) -/
theorem c2_malformed_line_isolated (opts : ViewerOptions) (src : String)
    (pre post : List String) (bad : String) (st st1 : RState) (tr1 : List OutElem)
    (hb : ¬ jsTrim bad = "") (hp : jsonParse (jsTrim bad) = none)
    (hpre : processLines opts src st pre = .ok (st1, tr1)) :
    processLines opts src st (pre ++ bad :: post)
      = (processLines opts src st1 post).map
          (fun r => (r.1, tr1 ++ .item (.block (.unparsed (jsTrim bad))) :: r.2))
    ∧ processLines opts src st (pre ++ post)
      = (processLines opts src st1 post).map (fun r => (r.1, tr1 ++ r.2)) := by
  have hbadline := processLine_unparsed opts src st1 bad hb hp
  constructor
  · rw [processLines_append opts src pre (bad :: post) st, hpre]
    simp only [processLines, hbadline]
    cases hpost : processLines opts src st1 post with
    | error e => rfl
    | ok r2 => rfl
  · rw [processLines_append opts src pre post st, hpre]

/-- C2 witness: around the malformed line `oops`, the document with the
line and the document without it continue identically from the same
state, the only difference being the one inserted fallback Block. -/
theorem c2_witness :
    processLines defaultOptions "src" initState (c2PreW ++ "oops" :: c2PostW)
      = (processLines defaultOptions "src" c2StW c2PostW).map
          (fun r => (r.1, c2TrW ++ .item (.block (.unparsed (jsTrim "oops"))) :: r.2))
    ∧ processLines defaultOptions "src" initState (c2PreW ++ c2PostW)
      = (processLines defaultOptions "src" c2StW c2PostW).map (fun r => (r.1, c2TrW ++ r.2)) :=
  c2_malformed_line_isolated defaultOptions "src" c2PreW c2PostW "oops" initState c2StW c2TrW
    (by decide) rfl rfl

/-- C2 counterexample: with a later line that parses to JSON `null`,
the whole render aborts, so the malformed first line `notjson` yields
no fallback Block at all — its presence or absence is not isolated from
the fate of the rest of the document. -/
theorem c2_counterexample :
    jsonParse (jsTrim "notjson") = none ∧ ¬ jsTrim "notjson" = ""
      ∧ renderJsonl "notjson\nnull" "src" defaultOptions = .error () :=
  ⟨rfl, by decide, rfl⟩

/-- C3: the wrapped-format line and the legacy-format line carrying the
same user message produce identical render traces — in particular the
same single user Block whose rendered text is `hi`. -/
theorem c3_wrapped_legacy_equivalent :
    (renderJsonl c3WrappedDoc "src" defaultOptions).toOption.map (fun r => r.2)
      = (renderJsonl c3LegacyDoc "src" defaultOptions).toOption.map (fun r => r.2)
    ∧ (renderJsonl c3WrappedDoc "src" defaultOptions).toOption.map
        (fun r => blocksOfTrace r.2)
      = some [Block.message true "hi"] :=
  ⟨rfl, rfl⟩

theorem readTokenMetrics_isSome_iff (entry : Json) :
    (readTokenMetrics entry).isSome = true ↔
      ((jsNumber (lastUsageField entry "input_tokens")).isSome = true
        ∧ (jsNumber (lastUsageField entry "output_tokens")).isSome = true) := by
  unfold readTokenMetrics
  cases h1 : jsNumber (lastUsageField entry "input_tokens") <;>
    cases h2 : jsNumber (lastUsageField entry "output_tokens") <;> simp

/-- C4: a classified `token_count` event always yields exactly one
usage display Block, and it contributes exactly one analytics sample
when both last-call token counts coerce to finite numbers and exactly
zero samples otherwise — missing or non-numeric counts are never
zero-filled into a sample. -/
theorem c4_usage_sample_iff_finite (opts : ViewerOptions) (src : String) (st : RState)
    (cur : Nat) (entry outer ts : Json) (st' : RState) (tr : List OutElem)
    (hh : st.sessionHeaderDone = true ∨ headerTrigger entry = false)
    (ht : entry.getP "type" = some (.str "token_count"))
    (h : dispatchEntry opts src st cur entry outer ts = .ok (st', tr)) :
    blocksOfTrace tr = [renderTokenUsage entry]
    ∧ ((samplesOfTrace tr).length = 1 ↔
        ((jsNumber (lastUsageField entry "input_tokens")).isSome = true
          ∧ (jsNumber (lastUsageField entry "output_tokens")).isSome = true))
    ∧ ((samplesOfTrace tr).length = 0 ↔
        ¬ ((jsNumber (lastUsageField entry "input_tokens")).isSome = true
          ∧ (jsNumber (lastUsageField entry "output_tokens")).isSome = true)) := by
  unfold dispatchEntry at h
  have hcond : ¬ (¬ st.sessionHeaderDone = true ∧ headerTrigger entry = true) := by
    rcases hh with h1 | h1
    · intro hc; exact hc.1 h1
    · intro hc; rw [h1] at hc; exact absurd hc.2 (by simp)
  rw [if_neg hcond] at h
  rw [if_neg (by simp [typeIs, ht] : ¬ typeIs entry "reasoning" = true)] at h
  rw [if_neg (by simp [typeIs, ht] : ¬ typeIs entry "message" = true)] at h
  rw [if_neg (by simp [typeIs, ht] : ¬ typeIs entry "function_call" = true)] at h
  rw [if_neg (by simp [typeIs, ht] : ¬ typeIs entry "function_call_output" = true)] at h
  rw [if_neg (by simp [typeIs, ht] : ¬ typeIs entry "user_message" = true)] at h
  rw [if_neg (by simp [typeIs, ht] : ¬ typeIs entry "agent_message" = true)] at h
  rw [if_neg (by simp [typeIs, ht] : ¬ typeIs entry "agent_reasoning" = true)] at h
  rw [if_pos (by simp [typeIs, ht] : typeIs entry "token_count" = true)] at h
  injection h with g1
  injection g1 with g1 g2
  subst g1; subst g2
  have hiff := readTokenMetrics_isSome_iff entry
  rcases hm : readTokenMetrics entry with _ | m
  · have hnand : ¬ ((jsNumber (lastUsageField entry "input_tokens")).isSome = true
        ∧ (jsNumber (lastUsageField entry "output_tokens")).isSome = true) := by
      intro hc
      have hs := hiff.mpr hc
      rw [hm] at hs
      simp at hs
    refine ⟨by simp [hm, blocksOfTrace], ?_, ?_⟩
    · constructor
      · intro h1
        exfalso
        simp [hm, samplesOfTrace] at h1
      · intro hc
        exact absurd hc hnand
    · constructor
      · intro _
        exact hnand
      · intro _
        simp [hm, samplesOfTrace]
  · have hand : ((jsNumber (lastUsageField entry "input_tokens")).isSome = true
        ∧ (jsNumber (lastUsageField entry "output_tokens")).isSome = true) :=
      hiff.mp (by rw [hm]; rfl)
    refine ⟨by simp [hm, blocksOfTrace], ?_, ?_⟩
    · constructor
      · intro _
        exact hand
      · intro _
        simp [hm, samplesOfTrace]
    · constructor
      · intro h1
        exfalso
        simp [hm, samplesOfTrace] at h1
      · intro hc
        exact absurd hand hc

/-- C4 witness: a `token_count` event whose `last_token_usage.input_tokens`
is the non-numeric string `abc` yields one usage Block and zero samples. -/
theorem c4_witness :
    blocksOfTrace c4TraceW = [renderTokenUsage c4EntryW]
    ∧ (samplesOfTrace c4TraceW).length = 0 := by
  have h := c4_usage_sample_iff_finite defaultOptions "src" ⟨some false, true, 0⟩ 0
    c4EntryW .null (.str "") ⟨some false, true, 0⟩ c4TraceW (Or.inl rfl) rfl rfl
  exact ⟨h.1, h.2.2.mpr (by decide)⟩

/-- C5 counterexample: with a character threshold of 5, a 5-character
body is initially collapsed although it does not exceed (strictly) the
character threshold nor the line threshold — the source collapses at
`>=`, not `>`. -/
theorem c5_counterexample :
    (renderJsonl c5DocCE "src" c5OptsCE).toOption.map (fun r => blocksOfTrace r.2)
      = some [Block.funcOutput "aaaaa" true]
    ∧ ¬ (jsLength "aaaaa" > c5OptsCE.collapseOutputCharThreshold
        ∨ lineSegCount "aaaaa" > c5OptsCE.collapseOutputLineThreshold) :=
  ⟨rfl, by decide⟩

/-- C5 (amended): a classified `function_call_output` event whose
`output` field is present renders exactly one function-output Block;
the Block is collapsible and is initially collapsed exactly when the
stringified body's length reaches (`≥`) the character threshold or its
line count reaches (`≥`) the line threshold. -/
theorem c5_output_collapse (opts : ViewerOptions) (src : String) (st : RState)
    (cur : Nat) (entry outer ts : Json) (b : String)
    (hh : st.sessionHeaderDone = true ∨ headerTrigger entry = false)
    (ht : entry.getP "type" = some (.str "function_call_output"))
    (hb : funcOutputBody entry = some b) :
    dispatchEntry opts src st cur entry outer ts
      = .ok (st, [.fclass "func-output", .item (.block (.funcOutput b
          (decide (jsLength b ≥ opts.collapseOutputCharThreshold
            ∨ lineSegCount b ≥ opts.collapseOutputLineThreshold))))])
    ∧ (Block.funcOutput b
        (decide (jsLength b ≥ opts.collapseOutputCharThreshold
          ∨ lineSegCount b ≥ opts.collapseOutputLineThreshold))).collapsible = true := by
  have hro : renderFunctionOutput opts entry
      = .ok (.funcOutput b
          (decide (jsLength b ≥ opts.collapseOutputCharThreshold
            ∨ lineSegCount b ≥ opts.collapseOutputLineThreshold))) := by
    unfold renderFunctionOutput
    rw [hb]
  have hcond : ¬ (¬ st.sessionHeaderDone = true ∧ headerTrigger entry = true) := by
    rcases hh with h1 | h1
    · intro hc; exact hc.1 h1
    · intro hc; rw [h1] at hc; exact absurd hc.2 (by simp)
  constructor
  · unfold dispatchEntry
    rw [if_neg hcond]
    rw [if_neg (by simp [typeIs, ht] : ¬ typeIs entry "reasoning" = true)]
    rw [if_neg (by simp [typeIs, ht] : ¬ typeIs entry "message" = true)]
    rw [if_neg (by simp [typeIs, ht] : ¬ typeIs entry "function_call" = true)]
    rw [if_pos (by simp [typeIs, ht] : typeIs entry "function_call_output" = true)]
    rw [hro]
  · rfl

/-- C5 witness: with the default 15000-character threshold, a
20000-character body yields an initially collapsed Block and a
5000-character body an initially expanded one. -/
theorem parseVal_a (fuel : Nat) (rest : List Char) :
    parseVal (fuel + 1) ('a' :: rest) = none := by
  unfold parseVal
  rfl

theorem jsonParse_a_cons (l : List Char) : jsonParse (String.mk ('a' :: l)) = none := by
  unfold jsonParse
  rw [show 2 * (String.mk ('a' :: l)).data.length + 4 = (2 * l.length + 5) + 1 from by
    simp [List.length_cons]
    omega]
  rw [parseVal_a (2 * l.length + 5) l]

theorem jsLength_replicate_a (n : Nat) :
    jsLength (String.mk (List.replicate n 'a')) = n := by
  simp [jsLength, List.map_replicate, List.sum_replicate]

theorem lineSegCount_replicate_a (n : Nat) :
    lineSegCount (String.mk (List.replicate n 'a')) = 1 := by
  have hf : (List.replicate n 'a').filter (fun c => decide (c = '\n')) = [] := by
    induction n with
    | zero => rfl
    | succ k ih => simp [List.replicate_succ, List.filter_cons, ih]
  simp [lineSegCount, hf]

theorem funcOutputBody_entry20000 : funcOutputBody c5Entry20000 = some c5Body20000 := by
  have hj : jsonParse c5Body20000 = none := by
    rw [show c5Body20000 = String.mk ('a' :: List.replicate 19999 'a') from rfl]
    exact jsonParse_a_cons _
  unfold funcOutputBody
  simp [c5Entry20000, Json.getP, lookupField, parseJsonStringMaybe, hj]

theorem funcOutputBody_entry5000 : funcOutputBody c5Entry5000 = some c5Body5000 := by
  have hj : jsonParse c5Body5000 = none := by
    rw [show c5Body5000 = String.mk ('a' :: List.replicate 4999 'a') from rfl]
    exact jsonParse_a_cons _
  unfold funcOutputBody
  simp [c5Entry5000, Json.getP, lookupField, parseJsonStringMaybe, hj]

/-- C5 witness: with the default 15000-character threshold, a
20000-character body yields an initially collapsed Block and a
5000-character body an initially expanded one. -/
theorem c5_witness :
    jsLength c5Body20000 = 20000
    ∧ dispatchEntry defaultOptions "src" ⟨some false, true, 0⟩ 0 c5Entry20000 .null (.str "")
        = .ok (⟨some false, true, 0⟩,
            [.fclass "func-output", .item (.block (.funcOutput c5Body20000 true))])
    ∧ jsLength c5Body5000 = 5000
    ∧ dispatchEntry defaultOptions "src" ⟨some false, true, 0⟩ 0 c5Entry5000 .null (.str "")
        = .ok (⟨some false, true, 0⟩,
            [.fclass "func-output", .item (.block (.funcOutput c5Body5000 false))]) := by
  refine ⟨jsLength_replicate_a 20000, ?_, jsLength_replicate_a 5000, ?_⟩
  · have h := (c5_output_collapse defaultOptions "src" ⟨some false, true, 0⟩ 0 c5Entry20000
      .null (.str "") c5Body20000 (Or.inl rfl) rfl funcOutputBody_entry20000).1
    rw [h]
    rw [show (decide (jsLength c5Body20000 ≥ defaultOptions.collapseOutputCharThreshold
        ∨ lineSegCount c5Body20000 ≥ defaultOptions.collapseOutputLineThreshold)) = true from by
      rw [show c5Body20000 = String.mk (List.replicate 20000 'a') from rfl,
        jsLength_replicate_a 20000, lineSegCount_replicate_a 20000]
      decide]
  · have h := (c5_output_collapse defaultOptions "src" ⟨some false, true, 0⟩ 0 c5Entry5000
      .null (.str "") c5Body5000 (Or.inl rfl) rfl funcOutputBody_entry5000).1
    rw [h]
    rw [show (decide (jsLength c5Body5000 ≥ defaultOptions.collapseOutputCharThreshold
        ∨ lineSegCount c5Body5000 ≥ defaultOptions.collapseOutputLineThreshold)) = false from by
      rw [show c5Body5000 = String.mk (List.replicate 5000 'a') from rfl,
        jsLength_replicate_a 5000, lineSegCount_replicate_a 5000]
      decide]

/-- C6: every recorded usage sample prices the turn at
`inputTokens × ($1.75 / 1M) + outputTokens × ($14.00 / 1M)`, computed
exactly in `ℚ`. -/
theorem c6_turn_cost (entry : Json) (m : TokenMetrics)
    (h : readTokenMetrics entry = some m) :
    m.turnPriceUsd = m.inputTokens * (175 / 100 / 1000000)
      + m.outputTokens * (14 / 1000000) := by
  unfold readTokenMetrics at h
  cases h1 : jsNumber (lastUsageField entry "input_tokens") with
  | none => rw [h1] at h; exact absurd h (by simp)
  | some inT =>
    cases h2 : jsNumber (lastUsageField entry "output_tokens") with
    | none => rw [h1, h2] at h; exact absurd h (by simp)
    | some outT =>
      rw [h1, h2] at h
      injection h with h3
      subst h3
      simp [TOKEN_PRICE_INPUT_PER_TOKEN, TOKEN_PRICE_OUTPUT_PER_TOKEN,
        TOKEN_PRICE_INPUT_PER_1M, TOKEN_PRICE_OUTPUT_PER_1M]

/-- C6 witness: one million input tokens and none out cost exactly
$1.75; none in and one million out cost exactly $14.00. -/
theorem c6_witness :
    (readTokenMetrics c6EntryInput).map TokenMetrics.turnPriceUsd = some (175 / 100)
    ∧ (readTokenMetrics c6EntryOutput).map TokenMetrics.turnPriceUsd = some 14 := by
  constructor
  · have hc := c6_turn_cost c6EntryInput c6MetricsInput rfl
    rw [show readTokenMetrics c6EntryInput = some c6MetricsInput from rfl]
    simp only [Option.map]
    rw [hc]
    norm_num [c6MetricsInput]
  · have hc := c6_turn_cost c6EntryOutput c6MetricsOutput rfl
    rw [show readTokenMetrics c6EntryOutput = some c6MetricsOutput from rfl]
    simp only [Option.map]
    rw [hc]
    norm_num [c6MetricsOutput]

/-- C7: for command arrays of length at least two, the explicit
`apply_patch` two-element form decides the extracted patch (the second
element's string form), regardless of any envelope elsewhere in the
array; only otherwise is the envelope scan consulted. -/
theorem c7_patch_priority :
    (∀ x0 x1 rest, jsString x0 = "apply_patch" →
      extractPatchFromCommand (some (.arr (x0 :: x1 :: rest))) = some (jsString x1))
    ∧ (∀ x0 x1 rest, ¬ jsString x0 = "apply_patch" →
      extractPatchFromCommand (some (.arr (x0 :: x1 :: rest)))
        = scanEnvelope (x0 :: x1 :: rest)) := by
  constructor
  · intro x0 x1 rest h
    simp only [extractPatchFromCommand]
    rw [if_pos h]
  · intro x0 x1 rest h
    simp only [extractPatchFromCommand]
    rw [if_neg h]

/-- C7 witness: although an element of the array carries a patch
envelope that the scan heuristic would find, the explicit two-element
form wins and extracts `X`. -/
theorem c7_witness :
    extractPatchFromCommand (some (.arr c7CmdW)) = some "X"
    ∧ scanEnvelope c7CmdW = some "*** Begin Patch\nB\n*** End Patch" := by
  constructor
  · exact c7_patch_priority.1 (.str "apply_patch") (.str "X")
      [.str "*** Begin Patch\nB\n*** End Patch"] rfl
  · rfl

theorem lookupEntryB_setEntryB (st : List (String × Bool)) (k : String) (v : Bool)
    (key : String) :
    lookupEntryB (setEntryB st k v) key
      = if k = key then some v else lookupEntryB st key := by
  induction st with
  | nil =>
    simp only [setEntryB, lookupEntryB]
  | cons a t ih =>
    obtain ⟨ak, av⟩ := a
    simp only [setEntryB]
    by_cases h1 : ak = k
    · subst h1
      rw [if_pos rfl]
      by_cases h2 : ak = key
      · simp [lookupEntryB, h2]
      · simp [lookupEntryB, h2]
    · rw [if_neg h1]
      by_cases h2 : ak = key
      · have h3 : ¬ k = key := fun hc => h1 (h2.trans hc.symm)
        simp [lookupEntryB, h2, h3]
      · simp [lookupEntryB, h2, ih]

theorem lookupEntryB_none (l : List (String × Bool)) (k : String)
    (h : k ∉ l.map Prod.fst) : lookupEntryB l k = none := by
  induction l with
  | nil => rfl
  | cons a t ih =>
    obtain ⟨ak, av⟩ := a
    simp only [List.map_cons, List.mem_cons] at h
    push_neg at h
    have h1 : ¬ ak = k := fun hc => h.1 hc.symm
    simp [lookupEntryB, h1, ih h.2]

theorem foldl_set_lookup (prev : List (String × Bool)) :
    (prev.map Prod.fst).Nodup →
    ∀ (acc : List (String × Bool)) (k : String),
    lookupEntryB (prev.foldl (fun st kv => setEntryB st kv.1 kv.2) acc) k
      = match lookupEntryB prev k with
        | some v => some v
        | none => lookupEntryB acc k := by
  induction prev with
  | nil =>
    intro _ acc k
    simp [lookupEntryB]
  | cons a t ih =>
    intro hn acc k
    obtain ⟨ak, av⟩ := a
    simp only [List.map_cons, List.nodup_cons] at hn
    simp only [List.foldl_cons]
    rw [ih hn.2 (setEntryB acc ak av) k]
    rw [lookupEntryB_setEntryB]
    by_cases h2 : ak = k
    · subst h2
      have ht : lookupEntryB t ak = none := lookupEntryB_none t ak hn.1
      simp [lookupEntryB, ht]
    · cases hl : lookupEntryB t k <;> simp [lookupEntryB, h2, hl]

theorem lookupEntryB_save (prev : List (String × Bool))
    (hn : (prev.map Prod.fst).Nodup) (k : String) :
    lookupEntryB (saveFilterState prev) k = lookupEntryB prev k := by
  unfold saveFilterState
  rw [foldl_set_lookup prev hn [] k]
  cases lookupEntryB prev k <;> simp [lookupEntryB]

/-- C8: reloading with no explicit override, every checkbox whose class
was persisted comes back with its last-saved visibility — except the
usage checkbox, which is always set from the current session's
configured default, overriding any persisted value. -/
theorem c8_filter_persistence (dflt : Bool) (prev fresh : List (String × Bool))
    (hn : (prev.map Prod.fst).Nodup) :
    loadFilterState dflt (some (saveFilterState prev)) fresh
      = fresh.map (fun kv =>
          if kv.1 = "usage" then (kv.1, dflt)
          else
            match lookupEntryB prev kv.1 with
            | some v => (kv.1, v)
            | none => kv) := by
  unfold loadFilterState
  have hf : ∀ kv : String × Bool,
      (if kv.1 = "usage" then (kv.1, dflt)
        else
          match lookupEntryB (saveFilterState prev) kv.1 with
          | some v => (kv.1, v)
          | none => kv)
      = (if kv.1 = "usage" then (kv.1, dflt)
        else
          match lookupEntryB prev kv.1 with
          | some v => (kv.1, v)
          | none => kv) := by
    intro kv
    by_cases h1 : kv.1 = "usage"
    · rw [if_pos h1, if_pos h1]
    · rw [if_neg h1, if_neg h1, lookupEntryB_save prev hn kv.1]
  exact List.map_congr_left (fun kv _ => hf kv)

/-- C8 witness: the persisted `user` and `reasoning` visibilities (both
toggled off) survive the reload, while the persisted `usage = true` is
overridden by the session default `false`. -/
theorem c8_witness :
    loadFilterState false (some (saveFilterState c8PrevW)) c8FreshW
      = [("user", false), ("reasoning", false), ("usage", false)] := by
  rw [c8_filter_persistence false c8PrevW c8FreshW (by decide)]
  rfl

theorem mem_replaceChar (d c : Char) (rep : List Char) (cs : List Char)
    (h : d ∈ replaceChar c rep cs) : d ∈ rep ∨ (d ∈ cs ∧ d ≠ c) := by
  induction cs with
  | nil => simp [replaceChar] at h
  | cons e t ih =>
    rw [show replaceChar c rep (e :: t)
        = (if e = c then rep ++ replaceChar c rep t else e :: replaceChar c rep t)
      from rfl] at h
    by_cases he : e = c
    · rw [if_pos he] at h
      rcases List.mem_append.mp h with h1 | h1
      · exact Or.inl h1
      · rcases ih h1 with h2 | ⟨h2, h3⟩
        · exact Or.inl h2
        · exact Or.inr ⟨List.mem_cons_of_mem e h2, h3⟩
    · rw [if_neg he] at h
      rcases List.mem_cons.mp h with h1 | h1
      · subst h1
        exact Or.inr ⟨List.mem_cons_self _ _, he⟩
      · rcases ih h1 with h2 | ⟨h2, h3⟩
        · exact Or.inl h2
        · exact Or.inr ⟨List.mem_cons_of_mem e h2, h3⟩

/-- C10: after the `&`, `<`, `>` replacement chain of `esc` (and of the
textually identical `escapeHtml`), the output contains no literal `<`
or `>` character, so record-derived text cannot inject markup. -/
theorem c10_escape_no_markup (s : String) :
    (¬ '<' ∈ (esc s).data ∧ ¬ '>' ∈ (esc s).data)
    ∧ (¬ '<' ∈ (escapeHtml s).data ∧ ¬ '>' ∈ (escapeHtml s).data) := by
  have key : ∀ cs : List Char,
      ¬ '<' ∈ replaceChar '>' ['&', 'g', 't', ';']
          (replaceChar '<' ['&', 'l', 't', ';'] cs)
      ∧ ¬ '>' ∈ replaceChar '>' ['&', 'g', 't', ';']
          (replaceChar '<' ['&', 'l', 't', ';'] cs) := by
    intro cs
    constructor
    · intro h
      rcases mem_replaceChar _ _ _ _ h with h1 | ⟨h1, _⟩
      · simp at h1
      · rcases mem_replaceChar _ _ _ _ h1 with h2 | ⟨_, h3⟩
        · simp at h2
        · exact h3 rfl
    · intro h
      rcases mem_replaceChar _ _ _ _ h with h1 | ⟨_, h3⟩
      · simp at h1
      · exact h3 rfl
  exact ⟨key _, key _⟩

theorem b64Value_b64Char : ∀ n, n < 64 → b64Value (b64Char n) = n := by decide

theorem b64Char_ne_pad : ∀ n, n < 64 → ¬ b64Char n = '=' := by decide

theorem base64_roundtrip : ∀ (l : List Nat), (∀ b ∈ l, b < 256) →
    base64DecodeChars (base64EncodeBytes l) = l
  | [], _ => rfl
  | [a], h => by
    have ha : a < 256 := h a (by simp)
    simp only [base64EncodeBytes, base64DecodeChars, if_true]
    rw [b64Value_b64Char (a / 4) (by omega), b64Value_b64Char (a % 4 * 16) (by omega)]
    simp only [List.cons.injEq, and_true]
    omega
  | [a, b], h => by
    have ha : a < 256 := h a (by simp)
    have hb : b < 256 := h b (by simp)
    simp only [base64EncodeBytes, base64DecodeChars, if_true]
    rw [if_neg (b64Char_ne_pad (b % 16 * 4) (by omega))]
    rw [b64Value_b64Char (a / 4) (by omega),
      b64Value_b64Char (a % 4 * 16 + b / 16) (by omega),
      b64Value_b64Char (b % 16 * 4) (by omega)]
    simp only [List.cons.injEq, and_true]
    constructor
    · omega
    · omega
  | a :: b :: c :: rest, h => by
    have ha : a < 256 := h a (by simp)
    have hb : b < 256 := h b (by simp)
    have hc : c < 256 := h c (by simp)
    have ih := base64_roundtrip rest (fun x hx => h x (by simp [hx]))
    simp only [base64EncodeBytes, base64DecodeChars]
    rw [if_neg (b64Char_ne_pad (b % 16 * 4 + c / 64) (by omega))]
    rw [if_neg (b64Char_ne_pad (c % 64) (by omega))]
    rw [b64Value_b64Char (a / 4) (by omega),
      b64Value_b64Char (a % 4 * 16 + b / 16) (by omega),
      b64Value_b64Char (b % 16 * 4 + c / 64) (by omega),
      b64Value_b64Char (c % 64) (by omega)]
    rw [ih]
    simp only [List.cons.injEq]
    refine ⟨by omega, by omega, by omega, trivial⟩

theorem utf8Step_enc_ascii (n : Nat) (h1 : n < 128) (rest : List Nat) :
    utf8Step n rest = (n, rest) := by
  unfold utf8Step
  rw [if_pos h1]

theorem utf8Step_enc_two (n : Nat) (h1 : ¬ n < 128) (h2 : n < 2048) (rest : List Nat) :
    utf8Step (192 + n / 64) ((128 + n % 64) :: rest) = (n, rest) := by
  unfold utf8Step
  rw [if_neg (by omega), if_pos (by omega)]
  simp only []
  rw [if_pos (by omega)]
  simp only [Prod.mk.injEq, and_true]
  omega

theorem utf8Step_enc_three (n : Nat) (h2 : ¬ n < 2048) (h3 : n < 65536) (rest : List Nat) :
    utf8Step (224 + n / 4096) ((128 + n / 64 % 64) :: (128 + n % 64) :: rest)
      = (n, rest) := by
  unfold utf8Step
  rw [if_neg (by omega), if_neg (by omega), if_pos (by omega)]
  simp only []
  rw [if_pos (by omega)]
  simp only [Prod.mk.injEq, and_true]
  omega

theorem utf8Step_enc_four (n : Nat) (h3 : ¬ n < 65536) (h4 : n < 1114112) (rest : List Nat) :
    utf8Step (240 + n / 262144)
      ((128 + n / 4096 % 64) :: (128 + n / 64 % 64) :: (128 + n % 64) :: rest)
      = (n, rest) := by
  unfold utf8Step
  rw [if_neg (by omega), if_neg (by omega), if_neg (by omega), if_pos (by omega)]
  simp only []
  rw [if_pos (by omega)]
  simp only [Prod.mk.injEq, and_true]
  omega

theorem utf8DecodeList_enc (n : Nat) (hn : n < 1114112) (f : Nat) (rest : List Nat) :
    utf8DecodeList (f + 1) (utf8EncodeChar n ++ rest) = n :: utf8DecodeList f rest := by
  unfold utf8EncodeChar
  by_cases h1 : n < 128
  · rw [if_pos h1]
    simp only [List.append_eq, List.cons_append, List.nil_append, utf8DecodeList,
      utf8Step_enc_ascii n h1 rest]
  · rw [if_neg h1]
    by_cases h2 : n < 2048
    · rw [if_pos h2]
      simp only [List.append_eq, List.cons_append, List.nil_append, utf8DecodeList,
        utf8Step_enc_two n h1 h2 rest]
    · rw [if_neg h2]
      by_cases h3 : n < 65536
      · rw [if_pos h3]
        simp only [List.append_eq, List.cons_append, List.nil_append, utf8DecodeList,
          utf8Step_enc_three n h2 h3 rest]
      · rw [if_neg h3]
        simp only [List.append_eq, List.cons_append, List.nil_append, utf8DecodeList,
          utf8Step_enc_four n h3 hn rest]

theorem char_toNat_lt (c : Char) : c.toNat < 1114112 := by
  rcases c.valid with h | h
  · exact Nat.lt_trans h (by norm_num)
  · exact h.2

theorem utf8EncodeChar_lt (n : Nat) (hn : n < 1114112) :
    ∀ b ∈ utf8EncodeChar n, b < 256 := by
  unfold utf8EncodeChar
  by_cases h1 : n < 128
  · rw [if_pos h1]
    intro b hb
    simp at hb
    omega
  · rw [if_neg h1]
    by_cases h2 : n < 2048
    · rw [if_pos h2]
      intro b hb
      simp at hb
      rcases hb with hb | hb <;> omega
    · rw [if_neg h2]
      by_cases h3 : n < 65536
      · rw [if_pos h3]
        intro b hb
        simp at hb
        rcases hb with hb | hb | hb <;> omega
      · rw [if_neg h3]
        intro b hb
        simp at hb
        rcases hb with hb | hb | hb | hb <;> omega

theorem utf8EncodeChar_length_pos (n : Nat) : 1 ≤ (utf8EncodeChar n).length := by
  unfold utf8EncodeChar
  by_cases h1 : n < 128
  · rw [if_pos h1]; simp
  · rw [if_neg h1]
    by_cases h2 : n < 2048
    · rw [if_pos h2]; simp
    · rw [if_neg h2]
      by_cases h3 : n < 65536
      · rw [if_pos h3]; simp
      · rw [if_neg h3]; simp

theorem utf8Encode_lt (s : String) : ∀ b ∈ utf8Encode s, b < 256 := by
  unfold utf8Encode
  induction s.data with
  | nil => simp
  | cons c t ih =>
    intro b hb
    simp only [List.foldr_cons, List.mem_append] at hb
    rcases hb with hb | hb
    · exact utf8EncodeChar_lt c.toNat (char_toNat_lt c) b hb
    · exact ih b hb

theorem utf8_decode_encodeList :
    ∀ (cs : List Char) (f : Nat),
    (cs.foldr (fun c acc => utf8EncodeChar c.toNat ++ acc) []).length ≤ f →
    utf8DecodeList f (cs.foldr (fun c acc => utf8EncodeChar c.toNat ++ acc) [])
      = cs.map Char.toNat := by
  intro cs
  induction cs with
  | nil =>
    intro f _
    cases f <;> rfl
  | cons c t ih =>
    intro f hf
    simp only [List.foldr_cons, List.length_append] at hf ⊢
    have hpos := utf8EncodeChar_length_pos c.toNat
    cases f with
    | zero => omega
    | succ f' =>
      rw [utf8DecodeList_enc c.toNat (char_toNat_lt c) f' _]
      rw [List.map_cons, ih f' (by omega)]

/-- C9: base64-encoding the UTF-8 bytes of any string and decoding the
result back yields the original string, so the copy action receives the
literal patch text. -/
theorem c9_base64_utf8_roundtrip (s : String) : base64ToUtf8 (utf8ToBase64 s) = s := by
  unfold base64ToUtf8 utf8ToBase64 utf8Decode
  rw [show (String.mk (base64EncodeBytes (utf8Encode s))).data
      = base64EncodeBytes (utf8Encode s) from rfl]
  rw [base64_roundtrip (utf8Encode s) (utf8Encode_lt s)]
  rw [show utf8Encode s
      = s.data.foldr (fun c acc => utf8EncodeChar c.toNat ++ acc) [] from rfl]
  rw [utf8_decode_encodeList s.data _ (Nat.le_refl _)]
  have hmap : (s.data.map Char.toNat).map Char.ofNat = s.data := by
    rw [List.map_map]
    have : ∀ c ∈ s.data, (Char.ofNat ∘ Char.toNat) c = id c := by
      intro c _
      simp [Char.ofNat_toNat]
    rw [List.map_congr_left this, List.map_id]
  rw [hmap]

end CodexLogViewer
